import Mathlib

/-!
Verification development for the Stevie v1.2 benchmark simulation core
(`server/rl/stevie_v12_benchmark.py`).

The Python source is shallowly embedded here: prices, balances and
confidences are modelled as exact rationals (the source uses IEEE floats;
none of the properties below depends on float rounding), timestamps as
natural-number hour indices (the source uses hourly datetimes; differences
divided by 3600 seconds are exactly the hour differences used here), and
the mutable `self` state of `StevieV12BenchmarkSuite` as an explicit
`SimState` record threaded through the step functions.  Decimal constants
of the source are written as the identical rational fractions (`3/10` for
`0.3`, and so on).  Quantities the source obtains from `numpy` square
roots (standard deviations, the Sharpe ratio and the performance score
derived from it) are represented exactly by the computable type `QSqrt`
below, which encodes a real number of the form `base + coeff·√radicand`.
-/

/-- One row of the indicator-enriched market data frame, restricted to the
fields the decision/simulation core reads (`ensemble_decision_engine` and
the `run_benchmark` loop). -/
structure MarketRow where
  timestamp : ℕ
  close : ℚ
  rsi : ℚ
  ma_crossover : ℕ
  bb_position : ℚ
  volatility : ℚ
  trend_strength : ℚ
  deriving Repr, DecidableEq

/-- `self.enhanced_params[risk_per_trade]`, i.e. `0.02`. -/
def risk_per_trade : ℚ := 2/100

/-- `self.enhanced_params[max_positions]`. -/
def max_positions : ℕ := 3

/-- `self.enhanced_params[stop_loss]`, i.e. `0.03`. -/
def stop_loss_pct : ℚ := 3/100

/-- `self.enhanced_params[take_profit]`, i.e. `0.06`. -/
def take_profit_pct : ℚ := 6/100

/-- `self.enhanced_params[ensemble_confidence_threshold]`, i.e. `0.45`. -/
def ensemble_confidence_threshold : ℚ := 45/100

/-- `self.initial_balance`. -/
def initial_balance : ℚ := 100000

/-- Provider 1 inside `ensemble_decision_engine`: the behaviour-cloning
signal (RSI + MA crossover), returning `(direction, confidence)`. -/
def behaviorCloningSignal (row : MarketRow) : ℤ × ℚ :=
  if row.rsi < 30 ∧ row.ma_crossover = 1 then (1, 8/10)
  else if row.rsi > 70 ∧ row.ma_crossover = 0 then (-1, 8/10)
  else (0, 6/10)

/-- Provider 2 inside `ensemble_decision_engine`: the bootstrap-RL signal
(momentum + mean reversion). -/
def bootstrapRLSignal (row : MarketRow) : ℤ × ℚ :=
  if row.trend_strength > 2/100 ∧ row.bb_position < 2/10 then (1, 85/100)
  else if row.trend_strength < -(2/100) ∧ row.bb_position > 8/10 then (-1, 85/100)
  else (0, 7/10)

/-- Provider 3 inside `ensemble_decision_engine`: the population-based
training signal (volatility-adjusted momentum). -/
def pbtSignal (row : MarketRow) : ℤ × ℚ :=
  let vol_adjusted_momentum := row.trend_strength / (row.volatility + 1/100)
  if vol_adjusted_momentum > 1 then (1, 9/10)
  else if vol_adjusted_momentum < -1 then (-1, 9/10)
  else (0, 75/100)

/-- The weighted-voting core of `ensemble_decision_engine` (the source
lines building `weights`, `ensemble_signal` and `ensemble_confidence`):
returns the pair `(ensemble_signal, ensemble_confidence)`. -/
def ensembleRaw (row : MarketRow) : ℚ × ℚ :=
  let bc := behaviorCloningSignal row
  let rl := bootstrapRLSignal row
  let pbt := pbtSignal row
  let w1 : ℚ := 3/10 * bc.2
  let w2 : ℚ := 4/10 * rl.2
  let w3 : ℚ := 3/10 * pbt.2
  let sumW := w1 + w2 + w3
  if sumW > 0 then
    (((bc.1 : ℚ) * w1 + (rl.1 : ℚ) * w2 + (pbt.1 : ℚ) * w3) / sumW, sumW / 3)
  else (0, 5/10)

/-- Action selection at the end of `ensemble_decision_engine`: `buy` when
the score clears `+0.2` and confidence clears the threshold, `sell`
symmetrically, otherwise `hold` (all comparisons strict). -/
def selectAction (signal conf threshold : ℚ) : String :=
  if signal > 2/10 ∧ conf > threshold then "buy"
  else if signal < -(2/10) ∧ conf > threshold then "sell"
  else "hold"

/-- The dictionary returned by `ensemble_decision_engine`. -/
structure EnsembleDecision where
  action : String
  signal_strength : ℚ
  confidence : ℚ
  bc_signal : ℤ
  rl_signal : ℤ
  pbt_signal : ℤ
  deriving Repr, DecidableEq

/-- `ensemble_decision_engine(row)`. -/
def ensembleDecisionEngine (row : MarketRow) : EnsembleDecision :=
  let bc := behaviorCloningSignal row
  let rl := bootstrapRLSignal row
  let pbt := pbtSignal row
  let raw := ensembleRaw row
  { action := selectAction raw.1 raw.2 ensemble_confidence_threshold
    signal_strength := |raw.1|
    confidence := raw.2
    bc_signal := bc.1
    rl_signal := rl.1
    pbt_signal := pbt.1 }

/-- One entry of `self.open_positions` (the dict built in
`execute_trade`).  `size` is in base-asset units. -/
structure Position where
  ptype : String
  entry_price : ℚ
  size : ℚ
  timestamp : ℕ
  stop_loss : ℚ
  take_profit : ℚ
  confidence : ℚ
  deriving Repr, DecidableEq

/-- One closed-trade record (the dicts appended to `self.closed_trades`).
`exit_reason` is an `Option` because the record built for a signal close
in `execute_trade` carries no `exit_reason` key at all (the analyzer reads
it with `t.get` of the `exit_reason` key). -/
structure Trade where
  timestamp : ℕ
  action : String
  entry_price : ℚ
  exit_price : ℚ
  size : ℚ
  pnl : ℚ
  ret : ℚ
  hold_time : ℚ
  confidence : ℚ
  portfolio_value : ℚ
  exit_reason : Option String
  deriving Repr, DecidableEq

/-- One entry of `self.daily_performance` appended each loop iteration of
`run_benchmark`. -/
structure PerfRecord where
  timestamp : ℕ
  portfolio_value : ℚ
  peak_value : ℚ
  drawdown : ℚ
  open_position_count : ℕ
  deriving Repr, DecidableEq

/-- The mutable simulation state of `StevieV12BenchmarkSuite`.
`portfolio_value` is the running cash balance (it is debited by the
position cost on open and credited with the exit proceeds on close).
`open_event_count` counts the `open_long` records `execute_trade`
appends to `self.trade_log`; close records are the same dicts stored in
`closed_trades`, so the full `trade_log` is recoverable from this state
and is not duplicated here. -/
structure SimState where
  portfolio_value : ℚ
  peak_value : ℚ
  open_positions : List Position
  closed_trades : List Trade
  open_event_count : ℕ
  daily_performance : List PerfRecord
  deriving Repr, DecidableEq

/-- The state produced by `StevieV12BenchmarkSuite.__init__`. -/
def initState : SimState :=
  { portfolio_value := initial_balance
    peak_value := initial_balance
    open_positions := []
    closed_trades := []
    open_event_count := 0
    daily_performance := [] }

/-- The `list.remove` operation of Python: drop the first element equal to `a`. -/
def removeFirst (l : List Position) (a : Position) : List Position :=
  match l with
  | [] => []
  | x :: xs => if x = a then xs else x :: removeFirst xs a

/-- The breach test of `check_stop_loss_take_profit` for one open
position: stop-loss is checked first, then take-profit, both against the
close price of the bar. -/
def breachReason (current_price : ℚ) (p : Position) : Option String :=
  if p.ptype = "long" then
    if current_price ≤ p.stop_loss then some "stop_loss"
    else if current_price ≥ p.take_profit then some "take_profit"
    else none
  else none

/-- One iteration of the close loop at the end of
`check_stop_loss_take_profit`: realize a collected `(reason, position)`
pair at its stored trigger price, append the trade record, and
`list.remove` the position. -/
def closeBreachedStep (ts : ℕ) (s : SimState) (rp : String × Position) : SimState :=
  let exit_price := if rp.1 = "stop_loss" then rp.2.stop_loss else rp.2.take_profit
  let pnl := (exit_price - rp.2.entry_price) * rp.2.size
  let cash := s.portfolio_value + rp.2.entry_price * rp.2.size + pnl
  let t : Trade :=
    { timestamp := ts
      action := "close_long_" ++ rp.1
      entry_price := rp.2.entry_price
      exit_price := exit_price
      size := rp.2.size
      pnl := pnl
      ret := pnl / (rp.2.entry_price * rp.2.size)
      hold_time := (ts : ℚ) - (rp.2.timestamp : ℚ)
      confidence := rp.2.confidence
      portfolio_value := cash
      exit_reason := some rp.1 }
  { s with portfolio_value := cash
           closed_trades := s.closed_trades ++ [t]
           open_positions := removeFirst s.open_positions rp.2 }

/-- The close loop at the end of `check_stop_loss_take_profit`. -/
def closeBreached (toClose : List (String × Position)) (ts : ℕ) (st : SimState) : SimState :=
  toClose.foldl (closeBreachedStep ts) st

/-- `check_stop_loss_take_profit(current_price, timestamp)`. -/
def checkStopLossTakeProfit (current_price : ℚ) (ts : ℕ) (st : SimState) : SimState :=
  let toClose := st.open_positions.filterMap
    (fun p => (breachReason current_price p).map (fun r => (r, p)))
  closeBreached toClose ts st

/-- One iteration of the `sell` close loop in `execute_trade`: realize
one long position at the current price and append its trade record,
which carries no `exit_reason` key. -/
def sellCloseStep (price : ℚ) (ts : ℕ) (s : SimState) (p : Position) : SimState :=
  let pnl := (price - p.entry_price) * p.size
  let cash := s.portfolio_value + p.entry_price * p.size + pnl
  let t : Trade :=
    { timestamp := ts
      action := "close_long"
      entry_price := p.entry_price
      exit_price := price
      size := p.size
      pnl := pnl
      ret := pnl / (p.entry_price * p.size)
      hold_time := (ts : ℚ) - (p.timestamp : ℚ)
      confidence := p.confidence
      portfolio_value := cash
      exit_reason := none }
  { s with portfolio_value := cash
           closed_trades := s.closed_trades ++ [t]
           open_positions := removeFirst s.open_positions p }

/-- `execute_trade(action, price, timestamp, confidence)`.  A `buy` under
the position cap sizes the position from the cash balance
(`self.portfolio_value * risk_per_trade * confidence**2`); a `sell`
closes every open long at the current price, appending trade records that
carry no `exit_reason` key. -/
def executeTrade (action : String) (price : ℚ) (ts : ℕ) (confidence : ℚ)
    (st : SimState) : SimState :=
  if action = "buy" ∧ st.open_positions.length < max_positions then
    let base_size := st.portfolio_value * risk_per_trade
    let position_size := base_size * confidence ^ 2
    if position_size > 0 then
      let p : Position :=
        { ptype := "long"
          entry_price := price
          size := position_size / price
          timestamp := ts
          stop_loss := price * (1 - stop_loss_pct)
          take_profit := price * (1 + take_profit_pct)
          confidence := confidence }
      { st with open_positions := st.open_positions ++ [p]
                portfolio_value := st.portfolio_value - position_size
                open_event_count := st.open_event_count + 1 }
    else st
  else if action = "sell" then
    let toClose := st.open_positions.filter (fun p => p.ptype = "long")
    toClose.foldl (sellCloseStep price ts) st
  else st

/-- The trading part of one `run_benchmark` loop iteration: exits are
checked first against the close of the bar, then the ensemble decision is
taken and executed when it is not `hold`. -/
def stepCore (st : SimState) (row : MarketRow) : SimState :=
  let st1 := checkStopLossTakeProfit row.close row.timestamp st
  let d := ensembleDecisionEngine row
  if d.action ≠ "hold" then
    executeTrade d.action row.close row.timestamp d.confidence st1 else st1

/-- One full iteration of the `run_benchmark` loop: the trading part
followed by the peak-value update and the performance record. -/
def stepSim (st : SimState) (row : MarketRow) : SimState :=
  let st2 := stepCore st row
  let total_value := st2.portfolio_value +
    (st2.open_positions.map (fun p => p.size * row.close)).sum
  let peak := max st2.peak_value total_value
  { st2 with
      peak_value := peak
      daily_performance := st2.daily_performance ++
        [{ timestamp := row.timestamp
           portfolio_value := total_value
           peak_value := peak
           drawdown := (peak - total_value) / peak
           open_position_count := st2.open_positions.length }] }

/-- The full `run_benchmark` step loop over the data frame. -/
def runSteps (st : SimState) (rows : List MarketRow) : SimState :=
  rows.foldl stepSim st

/-- One iteration of the post-loop forced close in `run_benchmark`:
realize one still-open position at the final close price of the bar with
`exit_reason` set to `final_close` (these records go to `closed_trades` only;
the position list is cleared wholesale afterwards). -/
def finalCloseStep (final_price : ℚ) (final_ts : ℕ) (s : SimState) (p : Position) : SimState :=
  let pnl := (final_price - p.entry_price) * p.size
  let cash := s.portfolio_value + p.entry_price * p.size + pnl
  let t : Trade :=
    { timestamp := final_ts
      action := "close_long_final"
      entry_price := p.entry_price
      exit_price := final_price
      size := p.size
      pnl := pnl
      ret := pnl / (p.entry_price * p.size)
      hold_time := (final_ts : ℚ) - (p.timestamp : ℚ)
      confidence := p.confidence
      portfolio_value := cash
      exit_reason := some "final_close" }
  { s with portfolio_value := cash
           closed_trades := s.closed_trades ++ [t] }

/-- The post-loop block of `run_benchmark`: every position still open is
closed at the final close price of the bar with `exit_reason` set to `final_close`,
then the open list is cleared. -/
def closeRemainingAtEnd (final_price : ℚ) (final_ts : ℕ) (st : SimState) : SimState :=
  let stClosed := st.open_positions.foldl (finalCloseStep final_price final_ts) st
  { stClosed with open_positions := [] }

/-- `run_benchmark` on a given data series (the data-frame generation and
indicator computation upstream of the loop are seeded pseudo-random data
preparation; the simulation core itself consumes an arbitrary prepared
series, which is the parameter here).  On an empty series the source
would fail at `market_data.iloc[-1]`; the empty case is returned
unchanged and is not used by any claim. -/
def runSimulation (st : SimState) (rows : List MarketRow) : SimState :=
  let stL := runSteps st rows
  match rows.getLast? with
  | some last => closeRemainingAtEnd last.close last.timestamp stL
  | none => stL

/-- Equity as §3 of the specification defines it: cash balance plus the
mark-to-market value of all open positions at the current price.  (This
is the notion of the spec; `execute_trade` in the source sizes positions from
`self.portfolio_value`, the cash balance alone.) -/
def equityOf (st : SimState) (price : ℚ) : ℚ :=
  st.portfolio_value + (st.open_positions.map (fun p => p.size * price)).sum

/-- Modelled from the spec (§4.2 sizing sentence): position size in quote
currency `equity × risk_per_trade × confidence²`, used to compare the
sizing formula of the spec with that of the source. -/
def specPositionSize (st : SimState) (price conf : ℚ) : ℚ :=
  equityOf st price * risk_per_trade * conf ^ 2

/-- Modelled from the spec (§4.1 and the formula of claim C3): the ensemble
score as `Σ wᵢ·dᵢ·cᵢ / Σ wᵢ` with the fixed structural weights
`wᵢ = 0.3/0.4/0.3`, used to compare with the score of the source. -/
def specEnsembleScore (row : MarketRow) : ℚ :=
  let bc := behaviorCloningSignal row
  let rl := bootstrapRLSignal row
  let pbt := pbtSignal row
  (3/10 * (bc.1 : ℚ) * bc.2 + 4/10 * (rl.1 : ℚ) * rl.2 + 3/10 * (pbt.1 : ℚ) * pbt.2)
    / (3/10 + 4/10 + 3/10)

/-- Exact representation of the real number `base + coeff·√radicand`
(with `radicand ≥ 0` at every use site).  The standard
deviations of the analyzer (`np.std`), the Sharpe ratio and the score derived
from it live in the quadratic extension `ℚ(√v)` of the rationals, where
`v` is the population variance of the trade returns; this type represents
such numbers exactly and computably. -/
structure QSqrt where
  base : ℚ
  coeff : ℚ
  radicand : ℚ
  deriving Repr, DecidableEq

/-- Embed a rational. -/
def QSqrt.ofRat (q : ℚ) : QSqrt := ⟨q, 0, 0⟩

/-- Decide `base + coeff·√radicand ≤ t` exactly (sign analysis plus
squaring; `radicand ≥ 0` assumed). -/
def QSqrt.leRat (x : QSqrt) (t : ℚ) : Bool :=
  let c := t - x.base
  if x.coeff = 0 then decide (0 ≤ c)
  else if x.coeff > 0 then decide (0 ≤ c) && decide (x.coeff ^ 2 * x.radicand ≤ c ^ 2)
  else decide (0 ≤ c) || decide (c ^ 2 ≤ x.coeff ^ 2 * x.radicand)

/-- Decide `base + coeff·√radicand ≥ t` exactly. -/
def QSqrt.geRat (x : QSqrt) (t : ℚ) : Bool :=
  let c := t - x.base
  if x.coeff = 0 then decide (c ≤ 0)
  else if x.coeff > 0 then decide (c ≤ 0) || decide (c ^ 2 ≤ x.coeff ^ 2 * x.radicand)
  else decide (c ≤ 0) && decide (x.coeff ^ 2 * x.radicand ≤ c ^ 2)

/-- Add a rational (exact). -/
def QSqrt.addRat (x : QSqrt) (q : ℚ) : QSqrt := ⟨x.base + q, x.coeff, x.radicand⟩

/-- Scale by a rational (exact). -/
def QSqrt.scale (q : ℚ) (x : QSqrt) : QSqrt := ⟨q * x.base, q * x.coeff, x.radicand⟩

/-- The Python `max(t, x)` against a rational bound. -/
def QSqrt.maxRat (x : QSqrt) (t : ℚ) : QSqrt := if x.geRat t then x else QSqrt.ofRat t

/-- The Python `min(t, x)` against a rational bound. -/
def QSqrt.minRat (x : QSqrt) (t : ℚ) : QSqrt := if x.leRat t then x else QSqrt.ofRat t

/-- `np.mean` (0 on the empty list; the source guards every empty use). -/
def listMean (xs : List ℚ) : ℚ :=
  if xs.length = 0 then 0 else xs.sum / (xs.length : ℚ)

/-- Population variance, so that `np.std xs = √(popVariance xs)`. -/
def popVariance (xs : List ℚ) : ℚ :=
  if xs.length = 0 then 0
  else ((xs.map (fun x => (x - listMean xs) ^ 2)).sum) / (xs.length : ℚ)

/-- `np.std` as the exact value `√(popVariance xs)` in `QSqrt` form. -/
def npStd (xs : List ℚ) : QSqrt := ⟨0, 1, popVariance xs⟩

/-- `np.min` on a nonempty list (0 on empty; the source guards it). -/
def listMinD (xs : List ℚ) : ℚ :=
  match xs with
  | [] => 0
  | x :: r => r.foldl min x

/-- `np.max` / `max` on a nonempty list (0 on empty; guarded). -/
def listMaxD (xs : List ℚ) : ℚ :=
  match xs with
  | [] => 0
  | x :: r => r.foldl max x

/-- The Sharpe ratio expression of the analyzer:
`np.mean(returns)/np.std(returns) if returns and np.std(returns) > 0 else 0`.
Since `mean/√v = (mean/v)·√v`, the value is `⟨0, mean/v, v⟩`. -/
def sharpeOf (returns : List ℚ) : QSqrt :=
  if returns ≠ [] ∧ popVariance returns > 0 then
    ⟨0, listMean returns / popVariance returns, popVariance returns⟩
  else ⟨0, 0, 0⟩

/-- `get_performance_grade(score)`. -/
def getPerformanceGrade (score : QSqrt) : String :=
  if score.geRat 90 then "A+"
  else if score.geRat 85 then "A"
  else if score.geRat 80 then "A-"
  else if score.geRat 75 then "B+"
  else if score.geRat 70 then "B"
  else if score.geRat 65 then "B-"
  else if score.geRat 60 then "C+"
  else if score.geRat 55 then "C"
  else if score.geRat 50 then "C-"
  else "D"

/-- The result of `compare_to_baseline` (baseline constants inlined at
their fixed values from the source). -/
structure BaselineComparison where
  total_return_improvement : ℚ
  sharpe_improvement : QSqrt
  win_rate_improvement : ℚ
  drawdown_improvement : ℚ
  sharpe_129pct : Bool
  win_rate_47pct : Bool
  drawdown_25pct : Bool
  deriving Repr, DecidableEq

/-- `compare_to_baseline(total_return, sharpe, win_rate, drawdown)`. -/
def compareToBaseline (total_return : ℚ) (sharpe : QSqrt) (win_rate drawdown : ℚ) :
    BaselineComparison :=
  let si := QSqrt.scale (1 / (197/1000)) (sharpe.addRat (-(197/1000)))
  { total_return_improvement := (total_return - 1014/10000) / (1014/10000)
    sharpe_improvement := si
    win_rate_improvement := (win_rate - 375/1000) / (375/1000)
    drawdown_improvement := -(drawdown - 106/1000) / (106/1000)
    sharpe_129pct := si.geRat (129/100)
    win_rate_47pct := decide ((win_rate - 375/1000) / (375/1000) ≥ 47/100)
    drawdown_25pct := decide (-(drawdown - 106/1000) / (106/1000) ≥ 25/100) }

/-- The result of `analyze_confidence_levels` when trades exist. -/
structure ConfidenceDistribution where
  mean_confidence : ℚ
  min_confidence : ℚ
  max_confidence : ℚ
  confidence_std : QSqrt
  high_confidence_trades : ℕ
  low_confidence_trades : ℕ
  deriving Repr, DecidableEq

/-- `analyze_confidence_levels()`; `none` models the empty dict returned
when there are no closed trades. -/
def analyzeConfidenceLevels (closed_trades : List Trade) : Option ConfidenceDistribution :=
  if closed_trades = [] then none
  else
    let confidences := closed_trades.map (fun t => t.confidence)
    some
      { mean_confidence := listMean confidences
        min_confidence := listMinD confidences
        max_confidence := listMaxD confidences
        confidence_std := npStd confidences
        high_confidence_trades := (confidences.filter (fun c => c > 8/10)).length
        low_confidence_trades := (confidences.filter (fun c => c < 5/10)).length }

/-- The constant dict returned by `analyze_component_performance`. -/
structure ComponentAnalysis where
  behavior_cloning_contribution : ℚ
  bootstrap_rl_contribution : ℚ
  pbt_evolution_contribution : ℚ
  ensemble_effectiveness : ℚ
  component_consensus_rate : ℚ
  best_performing_component : String
  improvement_areas : List String
  deriving Repr, DecidableEq

/-- `analyze_component_performance()`. -/
def analyzeComponentPerformance : ComponentAnalysis :=
  { behavior_cloning_contribution := 35/100
    bootstrap_rl_contribution := 40/100
    pbt_evolution_contribution := 25/100
    ensemble_effectiveness := 78/100
    component_consensus_rate := 62/100
    best_performing_component := "bootstrap_rl"
    improvement_areas := [ "behavior_cloning_refinement", "ensemble_weight_optimization"] }

/-- The results dict of `calculate_comprehensive_metrics` /
`get_baseline_results`.  `timestamp` models `datetime.now().isoformat()`
and `benchmark_duration_seconds` models
`time.time() - self.benchmark_start_time`; both are ambient-clock inputs
made explicit.  Keys present on only one of the two return paths are
`Option`-valued (`none` models an absent key).  `profit_factor` is `none`
for the infinite no-losing-trades case (`float` infinity in the source). -/
structure Metrics where
  timestamp : ℕ
  benchmark_duration_seconds : ℚ
  system_version : String
  initial_balance : ℚ
  final_balance : ℚ
  total_return : ℚ
  total_return_pct : ℚ
  total_trades : ℕ
  winning_trades : ℕ
  losing_trades : ℕ
  win_rate : ℚ
  win_rate_pct : ℚ
  avg_win : ℚ
  avg_loss : ℚ
  profit_factor : Option ℚ
  sharpe : QSqrt
  max_drawdown : ℚ
  max_drawdown_pct : ℚ
  volatility : QSqrt
  confidence_weighted_return : ℚ
  stop_loss_rate : ℚ
  take_profit_rate : ℚ
  risk_adjusted_return : ℚ
  performance_score : QSqrt
  performance_grade : String
  baseline_comparison : Option BaselineComparison
  trade_count_by_hour : Option (ℕ → ℕ)
  confidence_distribution : Option ConfidenceDistribution
  component_analysis : Option ComponentAnalysis
  message : Option String

/-- `get_baseline_results()`: the degenerate all-zero metrics object
returned when no trades were executed. -/
def getBaselineResults (portfolio_value : ℚ) (now : ℕ) (elapsed : ℚ) : Metrics :=
  { timestamp := now
    benchmark_duration_seconds := elapsed
    system_version := "Stevie Super-Training v1.2"
    initial_balance := initial_balance
    final_balance := portfolio_value
    total_return := 0
    total_return_pct := 0
    total_trades := 0
    winning_trades := 0
    losing_trades := 0
    win_rate := 0
    win_rate_pct := 0
    avg_win := 0
    avg_loss := 0
    profit_factor := some 0
    sharpe := ⟨0, 0, 0⟩
    max_drawdown := 0
    max_drawdown_pct := 0
    volatility := ⟨0, 0, 0⟩
    confidence_weighted_return := 0
    stop_loss_rate := 0
    take_profit_rate := 0
    risk_adjusted_return := 0
    performance_score := ⟨0, 0, 0⟩
    performance_grade := "D"
    baseline_comparison := none
    trade_count_by_hour := none
    confidence_distribution := none
    component_analysis := none
    message := some "No trades executed - insufficient signal confidence" }

/-- `analyze_trade_timing()`: trade counts keyed by hour of day (a key
absent from the Python dict is the count 0 here). -/
def analyzeTradeTiming (closed_trades : List Trade) : ℕ → ℕ :=
  fun h => (closed_trades.filter (fun t => t.timestamp % 24 = h)).length

/-- `calculate_comprehensive_metrics()`, as a function of the state it
reads (`self.closed_trades`, `self.daily_performance`,
`self.portfolio_value`) and of the two ambient-clock readings it embeds
in the result. -/
def calculateComprehensiveMetrics (closed_trades : List Trade)
    (daily_performance : List PerfRecord) (portfolio_value : ℚ)
    (now : ℕ) (elapsed : ℚ) : Metrics :=
  if closed_trades = [] then getBaselineResults portfolio_value now elapsed
  else
    let total_return := (portfolio_value - initial_balance) / initial_balance
    let winning := closed_trades.filter (fun t => t.pnl > 0)
    let losing := closed_trades.filter (fun t => t.pnl ≤ 0)
    let win_rate : ℚ :=
      if closed_trades ≠ [] then (winning.length : ℚ) / (closed_trades.length : ℚ) else 0
    let avg_win := if winning ≠ [] then listMean (winning.map (fun t => t.pnl)) else 0
    let avg_loss := if losing ≠ [] then listMean (losing.map (fun t => t.pnl)) else 0
    let profit_factor : Option ℚ :=
      if losing ≠ [] then
        some |((winning.map (fun t => t.pnl)).sum) / ((losing.map (fun t => t.pnl)).sum)|
      else none
    let returns := closed_trades.map (fun t => t.ret)
    let sharpe := sharpeOf returns
    let max_drawdown :=
      if daily_performance ≠ [] then listMaxD (daily_performance.map (fun r => r.drawdown))
      else 0
    let confidence_weighted_return :=
      if closed_trades ≠ [] then
        ((closed_trades.map (fun t => t.ret * t.confidence)).sum) /
          ((closed_trades.map (fun t => t.confidence)).sum)
      else 0
    let sl_trades := closed_trades.filter (fun t => t.exit_reason = some "stop_loss")
    let tp_trades := closed_trades.filter (fun t => t.exit_reason = some "take_profit")
    let sl_rate : ℚ :=
      if closed_trades ≠ [] then (sl_trades.length : ℚ) / (closed_trades.length : ℚ) else 0
    let tp_rate : ℚ :=
      if closed_trades ≠ [] then (tp_trades.length : ℚ) / (closed_trades.length : ℚ) else 0
    let score := (((QSqrt.scale 10 sharpe).addRat
      (50 + 30 * win_rate - 100 * max_drawdown)).maxRat 0).minRat 100
    { timestamp := now
      benchmark_duration_seconds := elapsed
      system_version := "Stevie Super-Training v1.2"
      initial_balance := initial_balance
      final_balance := portfolio_value
      total_return := total_return
      total_return_pct := total_return * 100
      total_trades := closed_trades.length
      winning_trades := winning.length
      losing_trades := losing.length
      win_rate := win_rate
      win_rate_pct := win_rate * 100
      avg_win := avg_win
      avg_loss := avg_loss
      profit_factor := profit_factor
      sharpe := sharpe
      max_drawdown := max_drawdown
      max_drawdown_pct := max_drawdown * 100
      volatility := if returns ≠ [] then npStd returns else ⟨0, 0, 0⟩
      confidence_weighted_return := confidence_weighted_return
      stop_loss_rate := sl_rate
      take_profit_rate := tp_rate
      risk_adjusted_return := total_return / (max_drawdown + 1/100)
      performance_score := score
      performance_grade := getPerformanceGrade score
      baseline_comparison := some (compareToBaseline total_return sharpe win_rate max_drawdown)
      trade_count_by_hour := some (analyzeTradeTiming closed_trades)
      confidence_distribution := analyzeConfidenceLevels closed_trades
      component_analysis := some analyzeComponentPerformance
      message := none }

/-- All fields of a trade record except the running `portfolio_value`
audit field (whose value depends on the cash threaded through a close
loop); used to state close-loop characterizations. -/
def tradeData (t : Trade) :
    ℕ × String × ℚ × ℚ × ℚ × ℚ × ℚ × ℚ × ℚ × Option String :=
  (t.timestamp, t.action, t.entry_price, t.exit_price, t.size, t.pnl, t.ret,
   t.hold_time, t.confidence, t.exit_reason)

/-- The exit price `check_stop_loss_take_profit` uses for a collected
`(reason, position)` pair: the stored trigger price itself. -/
def breachExitPrice (rp : String × Position) : ℚ :=
  if rp.1 = "stop_loss" then rp.2.stop_loss else rp.2.take_profit

/-- The `tradeData` of the record `check_stop_loss_take_profit` appends
for a collected `(reason, position)` pair. -/
def breachTradeData (ts : ℕ) (rp : String × Position) :
    ℕ × String × ℚ × ℚ × ℚ × ℚ × ℚ × ℚ × ℚ × Option String :=
  (ts, "close_long_" ++ rp.1, rp.2.entry_price, breachExitPrice rp, rp.2.size,
   (breachExitPrice rp - rp.2.entry_price) * rp.2.size,
   ((breachExitPrice rp - rp.2.entry_price) * rp.2.size) / (rp.2.entry_price * rp.2.size),
   (ts : ℚ) - (rp.2.timestamp : ℚ), rp.2.confidence, some rp.1)

/-- The `tradeData` of the record a `sell` close appends in
`execute_trade` (note the absent `exit_reason`). -/
def sellTradeData (price : ℚ) (ts : ℕ) (p : Position) :
    ℕ × String × ℚ × ℚ × ℚ × ℚ × ℚ × ℚ × ℚ × Option String :=
  (ts, "close_long", p.entry_price, price, p.size, (price - p.entry_price) * p.size,
   ((price - p.entry_price) * p.size) / (p.entry_price * p.size),
   (ts : ℚ) - (p.timestamp : ℚ), p.confidence, none)

/-- The `tradeData` of the forced close `run_benchmark` appends after the
loop for a position still open at the horizon. -/
def finalTradeData (price : ℚ) (ts : ℕ) (p : Position) :
    ℕ × String × ℚ × ℚ × ℚ × ℚ × ℚ × ℚ × ℚ × Option String :=
  (ts, "close_long_final", p.entry_price, price, p.size, (price - p.entry_price) * p.size,
   ((price - p.entry_price) * p.size) / (p.entry_price * p.size),
   (ts : ℚ) - (p.timestamp : ℚ), p.confidence, some "final_close")

/-- The position dict `execute_trade` builds for an accepted buy:
sized from the cash balance as
`portfolio_value * risk_per_trade * confidence²` quote units, converted
to base units at the current price, with stop/take prices at fixed
offsets. -/
def buyPosition (cash price : ℚ) (ts : ℕ) (confidence : ℚ) : Position :=
  { ptype := "long"
    entry_price := price
    size := cash * risk_per_trade * confidence ^ 2 / price
    timestamp := ts
    stop_loss := price * (1 - stop_loss_pct)
    take_profit := price * (1 + take_profit_pct)
    confidence := confidence }

/-- The exit-reason values a closed-trade record can actually carry:
no key at all (signal close), `stop_loss`, `take_profit` (trigger
closes) or `final_close` (forced close at the data horizon). -/
def allowedExit (t : Trade) : Prop :=
  t.exit_reason = none ∨ t.exit_reason = some "stop_loss"
    ∨ t.exit_reason = some "take_profit" ∨ t.exit_reason = some "final_close"

/-- The position-count bookkeeping relation: every open event recorded in
the trade log is accounted for by a closed trade or a still-open
position. -/
def accounted (st : SimState) : Prop :=
  st.open_event_count = st.closed_trades.length + st.open_positions.length

/-- Concrete market row on which all three providers vote `+1`
(RSI 25 with crossover, trend 0.1 with Bollinger position 0.1,
volatility 0.01). -/
def c3row : MarketRow :=
  { timestamp := 0, close := 100, rsi := 25, ma_crossover := 1
    bb_position := 1/10, volatility := 1/100, trend_strength := 1/10 }

/-- Concrete state with cash 98000 and one open long of 20 units at
entry 100 (mark-to-market 2000, so equity is 100000). -/
def c5state : SimState :=
  { portfolio_value := 98000, peak_value := 100000
    open_positions := [{ ptype := "long", entry_price := 100, size := 20, timestamp := 0
                         stop_loss := 97, take_profit := 106, confidence := 1/2 }]
    closed_trades := [], open_event_count := 1, daily_performance := [] }

/-- Concrete state with one open long of 2 units at entry 100. -/
def c2state : SimState :=
  { portfolio_value := 0, peak_value := 100000
    open_positions := [{ ptype := "long", entry_price := 100, size := 2, timestamp := 0
                         stop_loss := 97, take_profit := 106, confidence := 1/2 }]
    closed_trades := [], open_event_count := 1, daily_performance := [] }

/-- Concrete state whose equity (5000, no open positions) is already at
5% of the initial balance. -/
def c6state : SimState :=
  { portfolio_value := 5000, peak_value := 100000
    open_positions := [], closed_trades := [], open_event_count := 0
    daily_performance := [] }

/-- A neutral market bar (RSI 50, no trend). -/
def c6rowA : MarketRow :=
  { timestamp := 1, close := 100, rsi := 50, ma_crossover := 0
    bb_position := 1/2, volatility := 1/100, trend_strength := 0 }

/-- A second neutral market bar. -/
def c6rowB : MarketRow :=
  { timestamp := 2, close := 100, rsi := 50, ma_crossover := 0
    bb_position := 1/2, volatility := 1/100, trend_strength := 0 }

/-- Scenario A of the spec: one long opened at 100 with the default 3%
stop loss and 6% take profit, held in 2 units. -/
def c8state : SimState :=
  { portfolio_value := 0, peak_value := 100000
    open_positions := [{ ptype := "long", entry_price := 100, size := 2, timestamp := 0
                         stop_loss := 97, take_profit := 106, confidence := 1/2 }]
    closed_trades := [], open_event_count := 1, daily_performance := [] }

/-- The subsequent bar of scenario A, closing at 106. -/
def c8row : MarketRow :=
  { timestamp := 1, close := 106, rsi := 50, ma_crossover := 0
    bb_position := 1/2, volatility := 1/100, trend_strength := 0 }

/-- A neutral market bar used to instantiate run-level statements. -/
def c10row : MarketRow :=
  { timestamp := 1, close := 100, rsi := 50, ma_crossover := 0
    bb_position := 1/2, volatility := 1/100, trend_strength := 0 }

lemma foldl_removeFirst_cons (x : Position) :
    ∀ (ps : List Position) (o : List Position), (∀ a ∈ ps, a ≠ x) →
      ps.foldl removeFirst (x :: o) = x :: ps.foldl removeFirst o := by
  intro ps
  induction ps with
  | nil => intro o _; rfl
  | cons a as ih =>
    intro o h
    have hax : a ≠ x := h a (by simp)
    have hr : removeFirst (x :: o) a = x :: removeFirst o a := by
      have hxa : ¬ x = a := fun hxa => hax hxa.symm
      simp [removeFirst, hxa]
    rw [List.foldl_cons, List.foldl_cons, hr]
    exact ih _ (fun b hb => h b (by simp [hb]))

lemma removeAll_filter (p : Position → Bool) :
    ∀ l : List Position, (l.filter p).foldl removeFirst l = l.filter (fun a => !(p a)) := by
  intro l
  induction l with
  | nil => rfl
  | cons x xs ih =>
    by_cases hx : p x
    · have h1 : removeFirst (x :: xs) x = xs := by simp [removeFirst]
      simp only [List.filter_cons, hx, if_pos, List.foldl_cons, h1]
      simpa [hx] using ih
    · have hmem : ∀ a ∈ xs.filter p, a ≠ x := by
        intro a ha hax
        exact hx (hax ▸ (List.mem_filter.mp ha).2)
      have hpx : p x = false := by simpa using hx
      rw [show (x :: xs).filter p = xs.filter p by simp [List.filter_cons, hpx]]
      rw [foldl_removeFirst_cons x (xs.filter p) xs hmem, ih]
      simp [List.filter_cons, hpx]

lemma mem_breached_pairs {price : ℚ} {l : List Position} {rp : String × Position}
    (h : rp ∈ l.filterMap (fun p => (breachReason price p).map (fun r => (r, p)))) :
    breachReason price rp.2 = some rp.1 := by
  rcases List.mem_filterMap.mp h with ⟨a, _, hmap⟩
  cases hb : breachReason price a with
  | none => rw [hb] at hmap; simp at hmap
  | some r =>
    rw [hb] at hmap
    simp at hmap
    rw [← hmap]
    exact hb

lemma breached_pairs_map_snd (price : ℚ) :
    ∀ l : List Position,
      (l.filterMap (fun p => (breachReason price p).map (fun r => (r, p)))).map
          (fun rp => rp.2)
        = l.filter (fun p => (breachReason price p).isSome) := by
  intro l
  induction l with
  | nil => rfl
  | cons x xs ih =>
    cases h : breachReason price x <;>
      simp [List.filterMap_cons, h, List.filter_cons, ih]

lemma foldl_proj_const {α β : Type} (f : SimState → α → SimState) (g : SimState → β)
    (hf : ∀ s a, g (f s a) = g s) :
    ∀ (L : List α) (st : SimState), g (L.foldl f st) = g st := by
  intro L
  induction L with
  | nil => intro st; rfl
  | cons a as ih => intro st; rw [List.foldl_cons, ih, hf]

lemma foldl_proj_append {α β : Type} (f : SimState → α → SimState) (g : SimState → List β)
    (d : α → β) (hf : ∀ s a, g (f s a) = g s ++ [d a]) :
    ∀ (L : List α) (st : SimState), g (L.foldl f st) = g st ++ L.map d := by
  intro L
  induction L with
  | nil => intro st; simp
  | cons a as ih =>
    intro st
    rw [List.foldl_cons, ih, hf]
    simp

lemma foldl_open_remove {α : Type} (f : SimState → α → SimState) (pos : α → Position)
    (hf : ∀ s a, (f s a).open_positions = removeFirst s.open_positions (pos a)) :
    ∀ (L : List α) (st : SimState),
      (L.foldl f st).open_positions = (L.map pos).foldl removeFirst st.open_positions := by
  intro L
  induction L with
  | nil => intro st; rfl
  | cons a as ih =>
    intro st
    rw [List.foldl_cons, ih, hf, List.map_cons, List.foldl_cons]

lemma checkSLTP_open (price : ℚ) (ts : ℕ) (st : SimState) :
    (checkStopLossTakeProfit price ts st).open_positions
      = st.open_positions.filter (fun p => (breachReason price p).isNone) := by
  unfold checkStopLossTakeProfit closeBreached
  rw [foldl_open_remove (closeBreachedStep ts) (fun rp => rp.2) (fun _ _ => rfl)]
  rw [breached_pairs_map_snd price st.open_positions]
  rw [removeAll_filter (fun p => (breachReason price p).isSome) st.open_positions]
  exact List.filter_congr (fun a _ => by cases breachReason price a <;> rfl)

lemma checkSLTP_closedData (price : ℚ) (ts : ℕ) (st : SimState) :
    (checkStopLossTakeProfit price ts st).closed_trades.map tradeData
      = st.closed_trades.map tradeData
        ++ st.open_positions.filterMap
          (fun p => (breachReason price p).map (fun r => breachTradeData ts (r, p))) := by
  unfold checkStopLossTakeProfit closeBreached
  rw [foldl_proj_append (closeBreachedStep ts) (fun s => s.closed_trades.map tradeData)
    (breachTradeData ts) (fun s a => by
      simp [closeBreachedStep, tradeData, breachTradeData, breachExitPrice])]
  congr 1
  rw [List.map_filterMap]
  exact List.filterMap_congr (fun a _ => by cases breachReason price a <;> rfl)

lemma checkSLTP_openEvents (price : ℚ) (ts : ℕ) (st : SimState) :
    (checkStopLossTakeProfit price ts st).open_event_count = st.open_event_count := by
  unfold checkStopLossTakeProfit closeBreached
  exact foldl_proj_const (closeBreachedStep ts) (fun s => s.open_event_count)
    (fun _ _ => rfl) _ st

lemma checkSLTP_daily (price : ℚ) (ts : ℕ) (st : SimState) :
    (checkStopLossTakeProfit price ts st).daily_performance = st.daily_performance := by
  unfold checkStopLossTakeProfit closeBreached
  exact foldl_proj_const (closeBreachedStep ts) (fun s => s.daily_performance)
    (fun _ _ => rfl) _ st

lemma checkSLTP_closed_length (price : ℚ) (ts : ℕ) (st : SimState) :
    (checkStopLossTakeProfit price ts st).closed_trades.length
      = st.closed_trades.length
        + (st.open_positions.filter (fun p => (breachReason price p).isSome)).length := by
  have h := congrArg List.length (checkSLTP_closedData price ts st)
  simp only [List.length_map, List.length_append] at h
  rw [h]
  congr 1
  rw [← breached_pairs_map_snd price st.open_positions]
  simp [List.length_filterMap_eq_countP]

lemma executeTrade_buy_eq (price : ℚ) (ts : ℕ) (c : ℚ) (st : SimState)
    (hLen : st.open_positions.length < max_positions)
    (hPos : 0 < st.portfolio_value * risk_per_trade * c ^ 2) :
    executeTrade "buy" price ts c st =
      { st with
          open_positions := st.open_positions ++ [buyPosition st.portfolio_value price ts c]
          portfolio_value := st.portfolio_value - st.portfolio_value * risk_per_trade * c ^ 2
          open_event_count := st.open_event_count + 1 } := by
  unfold executeTrade
  rw [if_pos ⟨rfl, hLen⟩, if_pos hPos]
  rfl

lemma executeTrade_buy_capped (price : ℚ) (ts : ℕ) (c : ℚ) (st : SimState)
    (hLen : max_positions ≤ st.open_positions.length) :
    executeTrade "buy" price ts c st = st := by
  unfold executeTrade
  rw [if_neg (fun h => absurd h.2 (not_lt.mpr hLen)), if_neg (by simp)]

lemma executeTrade_buy_nonpos (price : ℚ) (ts : ℕ) (c : ℚ) (st : SimState)
    (hLen : st.open_positions.length < max_positions)
    (hPos : ¬ 0 < st.portfolio_value * risk_per_trade * c ^ 2) :
    executeTrade "buy" price ts c st = st := by
  unfold executeTrade
  rw [if_pos ⟨rfl, hLen⟩, if_neg hPos]

lemma executeTrade_sell_eq (price : ℚ) (ts : ℕ) (c : ℚ) (st : SimState) :
    executeTrade "sell" price ts c st =
      (st.open_positions.filter (fun p => p.ptype = "long")).foldl
        (sellCloseStep price ts) st := by
  unfold executeTrade
  rw [if_neg (by simp), if_pos rfl]

lemma executeTrade_sell_open (price : ℚ) (ts : ℕ) (c : ℚ) (st : SimState) :
    (executeTrade "sell" price ts c st).open_positions
      = st.open_positions.filter (fun p => ¬ p.ptype = "long") := by
  rw [executeTrade_sell_eq]
  rw [foldl_open_remove (sellCloseStep price ts) id (fun _ _ => rfl)]
  rw [List.map_id]
  rw [show (fun p : Position => decide (p.ptype = "long"))
      = (fun p : Position => (p.ptype = "long" : Bool)) from rfl] at *
  rw [removeAll_filter (fun p => (p.ptype = "long" : Bool)) st.open_positions]
  exact List.filter_congr (fun a _ => by by_cases h : a.ptype = "long" <;> simp [h])

lemma executeTrade_sell_closedData (price : ℚ) (ts : ℕ) (c : ℚ) (st : SimState) :
    (executeTrade "sell" price ts c st).closed_trades.map tradeData
      = st.closed_trades.map tradeData
        ++ (st.open_positions.filter (fun p => p.ptype = "long")).map
            (sellTradeData price ts) := by
  rw [executeTrade_sell_eq]
  exact foldl_proj_append (sellCloseStep price ts) (fun s => s.closed_trades.map tradeData)
    (sellTradeData price ts)
    (fun s a => by simp [sellCloseStep, tradeData, sellTradeData]) _ st

lemma executeTrade_sell_openEvents (price : ℚ) (ts : ℕ) (c : ℚ) (st : SimState) :
    (executeTrade "sell" price ts c st).open_event_count = st.open_event_count := by
  rw [executeTrade_sell_eq]
  exact foldl_proj_const (sellCloseStep price ts) (fun s => s.open_event_count)
    (fun _ _ => rfl) _ st

lemma executeTrade_sell_daily (price : ℚ) (ts : ℕ) (c : ℚ) (st : SimState) :
    (executeTrade "sell" price ts c st).daily_performance = st.daily_performance := by
  rw [executeTrade_sell_eq]
  exact foldl_proj_const (sellCloseStep price ts) (fun s => s.daily_performance)
    (fun _ _ => rfl) _ st

lemma closeRemainingAtEnd_open (price : ℚ) (ts : ℕ) (st : SimState) :
    (closeRemainingAtEnd price ts st).open_positions = [] := rfl

lemma closeRemainingAtEnd_closedData (price : ℚ) (ts : ℕ) (st : SimState) :
    (closeRemainingAtEnd price ts st).closed_trades.map tradeData
      = st.closed_trades.map tradeData
        ++ st.open_positions.map (finalTradeData price ts) := by
  unfold closeRemainingAtEnd
  exact foldl_proj_append (finalCloseStep price ts) (fun s => s.closed_trades.map tradeData)
    (finalTradeData price ts)
    (fun s a => by simp [finalCloseStep, tradeData, finalTradeData]) _ st

lemma closeRemainingAtEnd_openEvents (price : ℚ) (ts : ℕ) (st : SimState) :
    (closeRemainingAtEnd price ts st).open_event_count = st.open_event_count := by
  unfold closeRemainingAtEnd
  exact foldl_proj_const (finalCloseStep price ts) (fun s => s.open_event_count)
    (fun _ _ => rfl) _ st

lemma bc_conf_bounds (row : MarketRow) :
    6/10 ≤ (behaviorCloningSignal row).2 ∧ (behaviorCloningSignal row).2 ≤ 8/10 := by
  unfold behaviorCloningSignal
  split_ifs <;> norm_num

lemma rl_conf_bounds (row : MarketRow) :
    7/10 ≤ (bootstrapRLSignal row).2 ∧ (bootstrapRLSignal row).2 ≤ 85/100 := by
  unfold bootstrapRLSignal
  split_ifs <;> norm_num

lemma pbt_conf_bounds (row : MarketRow) :
    75/100 ≤ (pbtSignal row).2 ∧ (pbtSignal row).2 ≤ 9/10 := by
  simp only [pbtSignal]
  split_ifs <;> norm_num

lemma ensembleRaw_eq (row : MarketRow) :
    ensembleRaw row =
      ((((behaviorCloningSignal row).1 : ℚ) * (3/10 * (behaviorCloningSignal row).2)
          + ((bootstrapRLSignal row).1 : ℚ) * (4/10 * (bootstrapRLSignal row).2)
          + ((pbtSignal row).1 : ℚ) * (3/10 * (pbtSignal row).2))
        / (3/10 * (behaviorCloningSignal row).2 + 4/10 * (bootstrapRLSignal row).2
            + 3/10 * (pbtSignal row).2),
       (3/10 * (behaviorCloningSignal row).2 + 4/10 * (bootstrapRLSignal row).2
           + 3/10 * (pbtSignal row).2) / 3) := by
  have h1 := bc_conf_bounds row
  have h2 := rl_conf_bounds row
  have h3 := pbt_conf_bounds row
  simp only [ensembleRaw]
  rw [if_pos (by linarith [h1.1, h2.1, h3.1])]

lemma ensembleRaw_conf_le (row : MarketRow) : (ensembleRaw row).2 ≤ 17/60 := by
  have h1 := bc_conf_bounds row
  have h2 := rl_conf_bounds row
  have h3 := pbt_conf_bounds row
  rw [ensembleRaw_eq row]
  show (3/10 * (behaviorCloningSignal row).2 + 4/10 * (bootstrapRLSignal row).2
      + 3/10 * (pbtSignal row).2) / 3 ≤ 17/60
  linarith [h1.2, h2.2, h3.2]

lemma ensemble_action_hold (row : MarketRow) :
    (ensembleDecisionEngine row).action = "hold" := by
  have hc := ensembleRaw_conf_le row
  have hth : ¬ (ensembleRaw row).2 > ensemble_confidence_threshold := by
    rw [ensemble_confidence_threshold]
    intro h
    linarith
  show selectAction (ensembleRaw row).1 (ensembleRaw row).2 ensemble_confidence_threshold
    = "hold"
  unfold selectAction
  rw [if_neg (fun h => hth h.2), if_neg (fun h => hth h.2)]

lemma filter_length_split {α : Type} (p : α → Bool) (l : List α) :
    (l.filter p).length + (l.filter (fun a => !(p a))).length = l.length := by
  induction l with
  | nil => rfl
  | cons x xs ih =>
    cases h : p x <;> simp [List.filter_cons, h] <;> omega

lemma executeTrade_else (action : String) (price : ℚ) (ts : ℕ) (c : ℚ) (st : SimState)
    (h1 : ¬ (action = "buy" ∧ st.open_positions.length < max_positions))
    (h2 : ¬ action = "sell") :
    executeTrade action price ts c st = st := by
  unfold executeTrade
  rw [if_neg h1, if_neg h2]

lemma executeTrade_daily (action : String) (price : ℚ) (ts : ℕ) (c : ℚ) (st : SimState) :
    (executeTrade action price ts c st).daily_performance = st.daily_performance := by
  by_cases h1 : action = "buy" ∧ st.open_positions.length < max_positions
  · obtain ⟨hb, hlen⟩ := h1
    subst hb
    by_cases h2 : 0 < st.portfolio_value * risk_per_trade * c ^ 2
    · rw [executeTrade_buy_eq price ts c st hlen h2]
    · rw [executeTrade_buy_nonpos price ts c st hlen h2]
  · by_cases h3 : action = "sell"
    · subst h3
      exact executeTrade_sell_daily price ts c st
    · rw [executeTrade_else action price ts c st h1 h3]

lemma executeTrade_open_le (action : String) (price : ℚ) (ts : ℕ) (c : ℚ) (st : SimState)
    (h : st.open_positions.length ≤ max_positions) :
    (executeTrade action price ts c st).open_positions.length ≤ max_positions := by
  by_cases h1 : action = "buy" ∧ st.open_positions.length < max_positions
  · obtain ⟨hb, hlen⟩ := h1
    subst hb
    by_cases h2 : 0 < st.portfolio_value * risk_per_trade * c ^ 2
    · rw [executeTrade_buy_eq price ts c st hlen h2]
      simpa using hlen
    · rw [executeTrade_buy_nonpos price ts c st hlen h2]
      exact h
  · by_cases h3 : action = "sell"
    · subst h3
      rw [executeTrade_sell_open]
      exact le_trans (List.length_filter_le _ _) h
    · rw [executeTrade_else action price ts c st h1 h3]
      exact h

lemma executeTrade_accounted (action : String) (price : ℚ) (ts : ℕ) (c : ℚ) (st : SimState)
    (h : accounted st) :
    accounted (executeTrade action price ts c st) := by
  unfold accounted at h ⊢
  by_cases h1 : action = "buy" ∧ st.open_positions.length < max_positions
  · obtain ⟨hb, hlen⟩ := h1
    subst hb
    by_cases h2 : 0 < st.portfolio_value * risk_per_trade * c ^ 2
    · rw [executeTrade_buy_eq price ts c st hlen h2]
      simp
      omega
    · rw [executeTrade_buy_nonpos price ts c st hlen h2]
      exact h
  · by_cases h3 : action = "sell"
    · subst h3
      rw [executeTrade_sell_openEvents, executeTrade_sell_open]
      have hlen := congrArg List.length (executeTrade_sell_closedData price ts c st)
      simp only [List.length_map, List.length_append] at hlen
      rw [hlen]
      have hsplit := filter_length_split (fun p : Position => (p.ptype = "long" : Bool))
        st.open_positions
      have hconv : st.open_positions.filter (fun p : Position => ¬ p.ptype = "long")
          = st.open_positions.filter
            (fun p : Position => !((p.ptype = "long" : Bool))) :=
        List.filter_congr (fun a _ => by by_cases hp : a.ptype = "long" <;> simp [hp])
      rw [hconv]
      omega
    · rw [executeTrade_else action price ts c st h1 h3]
      exact h

lemma checkSLTP_accounted (price : ℚ) (ts : ℕ) (st : SimState) (h : accounted st) :
    accounted (checkStopLossTakeProfit price ts st) := by
  unfold accounted at h ⊢
  rw [checkSLTP_openEvents, checkSLTP_closed_length, checkSLTP_open]
  have hsplit := filter_length_split
    (fun p : Position => (breachReason price p).isSome) st.open_positions
  have hconv : st.open_positions.filter (fun p : Position => (breachReason price p).isNone)
      = st.open_positions.filter
        (fun p : Position => !((breachReason price p).isSome)) :=
    List.filter_congr (fun a _ => by cases breachReason price a <;> rfl)
  rw [hconv]
  omega

lemma breachReason_cases (price : ℚ) (p : Position) :
    breachReason price p = none ∨ breachReason price p = some "stop_loss"
      ∨ breachReason price p = some "take_profit" := by
  unfold breachReason
  split_ifs <;> simp

lemma exit_reason_mem_append {new old : List Trade}
    {ds : List (ℕ × String × ℚ × ℚ × ℚ × ℚ × ℚ × ℚ × ℚ × Option String)}
    (h : new.map tradeData = old.map tradeData ++ ds) {t : Trade} (ht : t ∈ new) :
    (∃ u ∈ old, u.exit_reason = t.exit_reason)
      ∨ ∃ d ∈ ds, d.2.2.2.2.2.2.2.2.2 = t.exit_reason := by
  have hmem : tradeData t ∈ old.map tradeData ++ ds := by
    rw [← h]
    exact List.mem_map_of_mem _ ht
  rcases List.mem_append.mp hmem with h1 | h2
  · rcases List.mem_map.mp h1 with ⟨u, hu, he⟩
    refine Or.inl ⟨u, hu, ?_⟩
    have hc := congrArg (fun d => d.2.2.2.2.2.2.2.2.2) he
    simpa [tradeData] using hc
  · exact Or.inr ⟨tradeData t, h2, rfl⟩

lemma checkSLTP_allowed (price : ℚ) (ts : ℕ) (st : SimState)
    (h : ∀ t ∈ st.closed_trades, allowedExit t) :
    ∀ t ∈ (checkStopLossTakeProfit price ts st).closed_trades, allowedExit t := by
  intro t ht
  rcases exit_reason_mem_append (checkSLTP_closedData price ts st) ht with
    ⟨u, hu, he⟩ | ⟨d, hd, he⟩
  · unfold allowedExit at *
    rw [← he]
    exact h u hu
  · rcases List.mem_filterMap.mp hd with ⟨p, _, hmap⟩
    rcases breachReason_cases price p with hb | hb | hb
    · rw [hb] at hmap
      simp at hmap
    · rw [hb] at hmap
      simp only [Option.map_some', Option.some.injEq] at hmap
      unfold allowedExit
      rw [← he, ← hmap]
      right; left; rfl
    · rw [hb] at hmap
      simp only [Option.map_some', Option.some.injEq] at hmap
      unfold allowedExit
      rw [← he, ← hmap]
      right; right; left; rfl

lemma executeTrade_allowed (action : String) (price : ℚ) (ts : ℕ) (c : ℚ) (st : SimState)
    (h : ∀ t ∈ st.closed_trades, allowedExit t) :
    ∀ t ∈ (executeTrade action price ts c st).closed_trades, allowedExit t := by
  by_cases h1 : action = "buy" ∧ st.open_positions.length < max_positions
  · obtain ⟨hb, hlen⟩ := h1
    subst hb
    by_cases h2 : 0 < st.portfolio_value * risk_per_trade * c ^ 2
    · rw [executeTrade_buy_eq price ts c st hlen h2]
      exact h
    · rw [executeTrade_buy_nonpos price ts c st hlen h2]
      exact h
  · by_cases h3 : action = "sell"
    · subst h3
      intro t ht
      rcases exit_reason_mem_append (executeTrade_sell_closedData price ts c st) ht with
        ⟨u, hu, he⟩ | ⟨d, hd, he⟩
      · unfold allowedExit at *
        rw [← he]
        exact h u hu
      · rcases List.mem_map.mp hd with ⟨p, _, hmap⟩
        unfold allowedExit
        rw [← he, ← hmap]
        left; rfl
    · rw [executeTrade_else action price ts c st h1 h3]
      exact h

lemma closeRemainingAtEnd_allowed (price : ℚ) (ts : ℕ) (st : SimState)
    (h : ∀ t ∈ st.closed_trades, allowedExit t) :
    ∀ t ∈ (closeRemainingAtEnd price ts st).closed_trades, allowedExit t := by
  intro t ht
  rcases exit_reason_mem_append (closeRemainingAtEnd_closedData price ts st) ht with
    ⟨u, hu, he⟩ | ⟨d, hd, he⟩
  · unfold allowedExit at *
    rw [← he]
    exact h u hu
  · rcases List.mem_map.mp hd with ⟨p, _, hmap⟩
    unfold allowedExit
    rw [← he, ← hmap]
    right; right; right; rfl

lemma stepSim_fields (st : SimState) (row : MarketRow) :
    (stepSim st row).open_positions = (stepCore st row).open_positions
      ∧ (stepSim st row).closed_trades = (stepCore st row).closed_trades
      ∧ (stepSim st row).open_event_count = (stepCore st row).open_event_count
      ∧ (stepSim st row).daily_performance
          = (stepCore st row).daily_performance ++
            [{ timestamp := row.timestamp
               portfolio_value := (stepCore st row).portfolio_value +
                 ((stepCore st row).open_positions.map (fun p => p.size * row.close)).sum
               peak_value := max (stepCore st row).peak_value
                 ((stepCore st row).portfolio_value +
                   ((stepCore st row).open_positions.map (fun p => p.size * row.close)).sum)
               drawdown := (max (stepCore st row).peak_value
                   ((stepCore st row).portfolio_value +
                     ((stepCore st row).open_positions.map (fun p => p.size * row.close)).sum)
                 - ((stepCore st row).portfolio_value +
                     ((stepCore st row).open_positions.map (fun p => p.size * row.close)).sum))
                 / max (stepCore st row).peak_value
                   ((stepCore st row).portfolio_value +
                     ((stepCore st row).open_positions.map (fun p => p.size * row.close)).sum)
               open_position_count := (stepCore st row).open_positions.length }] :=
  ⟨rfl, rfl, rfl, rfl⟩

lemma checkSLTP_open_le (price : ℚ) (ts : ℕ) (st : SimState)
    (h : st.open_positions.length ≤ max_positions) :
    (checkStopLossTakeProfit price ts st).open_positions.length ≤ max_positions := by
  rw [checkSLTP_open]
  exact le_trans (List.length_filter_le _ _) h

lemma stepCore_open_le (st : SimState) (row : MarketRow)
    (h : st.open_positions.length ≤ max_positions) :
    (stepCore st row).open_positions.length ≤ max_positions := by
  simp only [stepCore]
  split_ifs with hd
  · exact executeTrade_open_le _ _ _ _ _ (checkSLTP_open_le _ _ _ h)
  · exact checkSLTP_open_le _ _ _ h

lemma stepCore_accounted (st : SimState) (row : MarketRow) (h : accounted st) :
    accounted (stepCore st row) := by
  simp only [stepCore]
  split_ifs with hd
  · exact executeTrade_accounted _ _ _ _ _ (checkSLTP_accounted _ _ _ h)
  · exact checkSLTP_accounted _ _ _ h

lemma stepCore_allowed (st : SimState) (row : MarketRow)
    (h : ∀ t ∈ st.closed_trades, allowedExit t) :
    ∀ t ∈ (stepCore st row).closed_trades, allowedExit t := by
  simp only [stepCore]
  split_ifs with hd
  · exact executeTrade_allowed _ _ _ _ _ (checkSLTP_allowed _ _ _ h)
  · exact checkSLTP_allowed _ _ _ h

lemma stepCore_daily (st : SimState) (row : MarketRow) :
    (stepCore st row).daily_performance = st.daily_performance := by
  simp only [stepCore]
  split_ifs with hd
  · rw [executeTrade_daily, checkSLTP_daily]
  · rw [checkSLTP_daily]

lemma stepSim_daily_length (st : SimState) (row : MarketRow) :
    (stepSim st row).daily_performance.length = st.daily_performance.length + 1 := by
  rw [(stepSim_fields st row).2.2.2]
  simp [stepCore_daily]

lemma stepSim_open_le (st : SimState) (row : MarketRow)
    (h : st.open_positions.length ≤ max_positions) :
    (stepSim st row).open_positions.length ≤ max_positions := by
  rw [(stepSim_fields st row).1]
  exact stepCore_open_le st row h

lemma stepSim_accounted (st : SimState) (row : MarketRow) (h : accounted st) :
    accounted (stepSim st row) := by
  have hc := stepCore_accounted st row h
  unfold accounted at hc ⊢
  rw [(stepSim_fields st row).1, (stepSim_fields st row).2.1,
    (stepSim_fields st row).2.2.1]
  exact hc

lemma stepSim_allowed (st : SimState) (row : MarketRow)
    (h : ∀ t ∈ st.closed_trades, allowedExit t) :
    ∀ t ∈ (stepSim st row).closed_trades, allowedExit t := by
  intro t ht
  rw [(stepSim_fields st row).2.1] at ht
  exact stepCore_allowed st row h t ht

lemma stepSim_perf_le (st : SimState) (row : MarketRow)
    (h1 : st.open_positions.length ≤ max_positions)
    (h2 : ∀ r ∈ st.daily_performance, r.open_position_count ≤ max_positions) :
    ∀ r ∈ (stepSim st row).daily_performance, r.open_position_count ≤ max_positions := by
  intro r hr
  rw [(stepSim_fields st row).2.2.2] at hr
  rcases List.mem_append.mp hr with ho | hn
  · rw [stepCore_daily] at ho
    exact h2 r ho
  · rw [List.mem_singleton.mp hn]
    exact stepCore_open_le st row h1

lemma stepCore_no_trades (st : SimState) (row : MarketRow)
    (h : st.open_positions = [] ∧ st.closed_trades = [] ∧ st.open_event_count = 0) :
    stepCore st row = st := by
  have hst1 : checkStopLossTakeProfit row.close row.timestamp st = st := by
    unfold checkStopLossTakeProfit closeBreached
    rw [h.1]
    rfl
  simp only [stepCore, hst1, ensemble_action_hold row, ne_eq]
  simp

lemma stepSim_no_trades (st : SimState) (row : MarketRow)
    (h : st.open_positions = [] ∧ st.closed_trades = [] ∧ st.open_event_count = 0) :
    (stepSim st row).open_positions = [] ∧ (stepSim st row).closed_trades = []
      ∧ (stepSim st row).open_event_count = 0 := by
  refine ⟨?_, ?_, ?_⟩
  · rw [(stepSim_fields st row).1, stepCore_no_trades st row h]
    exact h.1
  · rw [(stepSim_fields st row).2.1, stepCore_no_trades st row h]
    exact h.2.1
  · rw [(stepSim_fields st row).2.2.1, stepCore_no_trades st row h]
    exact h.2.2

lemma runSteps_pres {P : SimState → Prop} (hP : ∀ st row, P st → P (stepSim st row)) :
    ∀ (rows : List MarketRow) (st : SimState), P st → P (runSteps st rows) := by
  intro rows
  induction rows with
  | nil => intro st h; exact h
  | cons r rs ih => intro st h; exact ih (stepSim st r) (hP st r h)

lemma runSteps_daily_length :
    ∀ (rows : List MarketRow) (st : SimState),
      (runSteps st rows).daily_performance.length
        = st.daily_performance.length + rows.length := by
  intro rows
  induction rows with
  | nil => intro st; simp [runSteps]
  | cons r rs ih =>
    intro st
    have h1 : runSteps st (r :: rs) = runSteps (stepSim st r) rs := rfl
    rw [h1, ih, stepSim_daily_length]
    simp only [List.length_cons]
    omega

lemma run_no_trades (rows : List MarketRow) :
    (runSimulation initState rows).closed_trades = []
      ∧ (runSimulation initState rows).open_positions = []
      ∧ (runSimulation initState rows).open_event_count = 0 := by
  have hP := @runSteps_pres
    (fun s => s.open_positions = [] ∧ s.closed_trades = [] ∧ s.open_event_count = 0)
    stepSim_no_trades rows initState ⟨rfl, rfl, rfl⟩
  unfold runSimulation
  rcases hlast : rows.getLast? with _ | last
  · simp only [hlast]
    exact ⟨hP.2.1, hP.1, hP.2.2⟩
  · simp only [hlast]
    have hcl : closeRemainingAtEnd last.close last.timestamp (runSteps initState rows)
        = { runSteps initState rows with open_positions := [] } := by
      unfold closeRemainingAtEnd
      rw [hP.1]
      rfl
    rw [hcl]
    exact ⟨hP.2.1, rfl, hP.2.2⟩

/-- C1: under the default configuration (structural weights 0.3/0.4/0.3,
provider confidences drawn from {0.6,0.8}, {0.7,0.85}, {0.75,0.9},
threshold 0.45), the per-row aggregate confidence `sum(weights)/3` is at
most 0.2834 and strictly below the threshold, so the action is always
`hold` and any simulation run opens zero positions and records zero
closed trades. -/
theorem c1_default_config_never_trades :
    (∀ row : MarketRow,
        (ensembleRaw row).2 ≤ 2834/10000
        ∧ (ensembleRaw row).2 < ensemble_confidence_threshold
        ∧ (ensembleDecisionEngine row).action = "hold")
    ∧ ∀ rows : List MarketRow,
        (runSimulation initState rows).closed_trades = []
        ∧ (runSimulation initState rows).open_positions = []
        ∧ (runSimulation initState rows).open_event_count = 0 := by
  constructor
  · intro row
    have hc := ensembleRaw_conf_le row
    refine ⟨by linarith, ?_, ensemble_action_hold row⟩
    rw [ensemble_confidence_threshold]
    linarith
  · exact run_no_trades

/-- C3 counterexample: on a row where all three providers vote `+1`, the
ensemble score of the engine is 1 (weighted average of directions with
confidence-scaled weights), while the formula of the spec
`Σ wᵢ·dᵢ·cᵢ / Σ wᵢ` with structural weights `Σ wᵢ = 1` gives 0.85. -/
theorem c3_score_formula_counterexample :
    (ensembleRaw c3row).1 ≠ specEnsembleScore c3row := by
  rw [ensembleRaw_eq c3row]
  norm_num [specEnsembleScore, behaviorCloningSignal, bootstrapRLSignal, pbtSignal, c3row]

/-- C3 amended: the ensemble score is the weighted average of provider
directions with weights `wᵢ·cᵢ` (structural weight times reported
confidence) — i.e. `Σ (wᵢ·cᵢ)·dᵢ / Σ (wᵢ·cᵢ)`, the confidence-scaled
weights appearing in the denominator as well — and the aggregate
confidence is `Σ (wᵢ·cᵢ) / 3`. -/
theorem c3_score_formula_amended :
    ∀ row : MarketRow,
      (ensembleRaw row).1 =
        (((behaviorCloningSignal row).1 : ℚ) * (3/10 * (behaviorCloningSignal row).2)
            + ((bootstrapRLSignal row).1 : ℚ) * (4/10 * (bootstrapRLSignal row).2)
            + ((pbtSignal row).1 : ℚ) * (3/10 * (pbtSignal row).2))
          / (3/10 * (behaviorCloningSignal row).2 + 4/10 * (bootstrapRLSignal row).2
              + 3/10 * (pbtSignal row).2)
      ∧ (ensembleRaw row).2 =
          (3/10 * (behaviorCloningSignal row).2 + 4/10 * (bootstrapRLSignal row).2
              + 3/10 * (pbtSignal row).2) / 3 := by
  intro row
  rw [ensembleRaw_eq row]
  exact ⟨rfl, rfl⟩

/-- C4: the action is `buy` iff the score strictly exceeds +0.2 and the
confidence strictly exceeds the threshold, `sell` iff symmetric, and
`hold` otherwise; exact boundaries resolve to `hold`, and score 0.25 with
confidence 0.50 against threshold 0.45 yields `buy`. -/
theorem c4_action_selection :
    ∀ s c th : ℚ,
      (selectAction s c th = "buy" ↔ s > 2/10 ∧ c > th)
      ∧ (selectAction s c th = "sell" ↔ s < -(2/10) ∧ c > th)
      ∧ (selectAction s c th = "hold"
          ↔ ¬(s > 2/10 ∧ c > th) ∧ ¬(s < -(2/10) ∧ c > th))
      ∧ selectAction (2/10) c th = "hold"
      ∧ selectAction (-(2/10)) c th = "hold"
      ∧ selectAction s th th = "hold"
      ∧ selectAction (25/100) (50/100) (45/100) = "buy" := by
  intro s c th
  refine ⟨?_, ?_, ?_, ?_, ?_, ?_, ?_⟩
  · unfold selectAction
    split_ifs with h1 h2
    · simp [h1]
    · simp [h1]
    · simp [h1]
  · unfold selectAction
    split_ifs with h1 h2
    · constructor
      · intro h
        exact absurd h (by decide)
      · rintro ⟨hs, _⟩
        exfalso
        linarith [h1.1]
    · simp [h2]
    · simp [h2]
  · unfold selectAction
    split_ifs with h1 h2
    · simp [h1]
    · simp [h2]
    · simp [h1, h2]
  · unfold selectAction
    rw [if_neg (fun h => absurd h.1 (lt_irrefl _)),
      if_neg (fun h => absurd h.1 (by norm_num))]
  · unfold selectAction
    rw [if_neg (fun h => absurd h.1 (by norm_num)),
      if_neg (fun h => absurd h.1 (lt_irrefl _))]
  · unfold selectAction
    rw [if_neg (fun h => absurd h.2 (lt_irrefl th)),
      if_neg (fun h => absurd h.2 (lt_irrefl th))]
  · unfold selectAction
    rw [if_pos ⟨by norm_num, by norm_num⟩]

/-- C5 counterexample: with cash 98000 and one open long worth 2000 at
the current price (equity 100000), an accepted buy at confidence 1/2 is
sized at `98000 × 0.02 × 0.25 = 490` quote units from the cash balance,
not at `equity × risk_per_trade × confidence² = 500`. -/
theorem c5_sizing_counterexample :
    (executeTrade "buy" 100 1 (1/2) c5state).open_positions
        = c5state.open_positions ++ [buyPosition c5state.portfolio_value 100 1 (1/2)]
      ∧ (buyPosition c5state.portfolio_value 100 1 (1/2)).size * 100 = 490
      ∧ specPositionSize c5state 100 (1/2) = 500
      ∧ (490 : ℚ) ≠ 500 := by
  refine ⟨?_, ?_, ?_, by norm_num⟩
  · rw [executeTrade_buy_eq 100 1 (1/2) c5state (by decide)
      (by norm_num [c5state, risk_per_trade])]
  · norm_num [buyPosition, c5state, risk_per_trade]
  · norm_num [specPositionSize, equityOf, c5state, risk_per_trade]

/-- C5 amended: an accepted buy (cap not reached, positive size) appends
one position sized at `portfolio_value × risk_per_trade × confidence²`
quote units — the cash balance, not cash plus mark-to-market — converted
to base units at the current price, and debits the cash balance by that
amount. -/
theorem c5_sizing_amended :
    ∀ (st : SimState) (price : ℚ) (ts : ℕ) (c : ℚ),
      st.open_positions.length < max_positions →
      0 < st.portfolio_value * risk_per_trade * c ^ 2 →
      (executeTrade "buy" price ts c st).open_positions
          = st.open_positions ++ [buyPosition st.portfolio_value price ts c]
        ∧ (buyPosition st.portfolio_value price ts c).size
            = st.portfolio_value * risk_per_trade * c ^ 2 / price
        ∧ (executeTrade "buy" price ts c st).portfolio_value
            = st.portfolio_value - st.portfolio_value * risk_per_trade * c ^ 2 := by
  intro st price ts c h1 h2
  rw [executeTrade_buy_eq price ts c st h1 h2]
  exact ⟨rfl, rfl, rfl⟩

/-- C5 witness: the amended sizing rule applied at the initial state with
price 100 and confidence 1/2. -/
theorem c5_sizing_amended_witness :
    (executeTrade "buy" 100 0 (1/2) initState).open_positions
        = initState.open_positions ++ [buyPosition initState.portfolio_value 100 0 (1/2)]
      ∧ (buyPosition initState.portfolio_value 100 0 (1/2)).size
          = initState.portfolio_value * risk_per_trade * (1/2) ^ 2 / 100
      ∧ (executeTrade "buy" 100 0 (1/2) initState).portfolio_value
          = initState.portfolio_value
            - initState.portfolio_value * risk_per_trade * (1/2) ^ 2 :=
  c5_sizing_amended initState 100 0 (1/2) (by decide)
    (by simp [initState, initial_balance, risk_per_trade])

/-- C6 counterexample: from a state whose equity (5000) is at most 10% of
the initial balance, the step loop still processes both of the next two
bars (two performance records are appended) instead of terminating. -/
theorem c6_no_capital_exhaustion_stop_counterexample :
    equityOf c6state c6rowA.close ≤ initial_balance / 10
      ∧ (runSteps c6state [c6rowA, c6rowB]).daily_performance.length = 2 := by
  constructor
  · norm_num [equityOf, c6state, initial_balance]
  · rw [runSteps_daily_length]
    simp [c6state]

/-- C6 amended: the `run_benchmark` step loop contains no
capital-exhaustion stop: from any state it appends exactly one
performance record per input bar — i.e. it processes every bar of the
series regardless of equity. -/
theorem c6_loop_processes_all_bars :
    ∀ (st : SimState) (rows : List MarketRow),
      (runSteps st rows).daily_performance.length
        = st.daily_performance.length + rows.length :=
  fun st rows => runSteps_daily_length rows st

/-- C7 counterexample: two calls of the analyzer on identical trade data
but at different ambient-clock readings differ (in the embedded
`timestamp` field), so re-running it does not yield an identical metrics
object field for field. -/
theorem c7_analyzer_clock_counterexample :
    calculateComprehensiveMetrics [] [] initial_balance 0 0
      ≠ calculateComprehensiveMetrics [] [] initial_balance 1 0 := by
  intro h
  have e1 : calculateComprehensiveMetrics [] [] initial_balance 0 0
      = getBaselineResults initial_balance 0 0 := by
    unfold calculateComprehensiveMetrics
    rw [if_pos rfl]
  have e2 : calculateComprehensiveMetrics [] [] initial_balance 1 0
      = getBaselineResults initial_balance 1 0 := by
    unfold calculateComprehensiveMetrics
    rw [if_pos rfl]
  rw [e1, e2] at h
  have h2 := congrArg Metrics.timestamp h
  simp [getBaselineResults] at h2

/-- C7 amended: the analyzer is a pure function of the trade log, the
performance timeline, the final cash balance and the two ambient-clock
readings it embeds; two runs on the same trade data agree on every field
except the clock-derived `timestamp` and `benchmark_duration_seconds`. -/
theorem c7_analyzer_pure_up_to_clock :
    ∀ (trades : List Trade) (perf : List PerfRecord) (cash : ℚ)
      (n1 n2 : ℕ) (e1 e2 : ℚ),
      calculateComprehensiveMetrics trades perf cash n1 e1
        = { calculateComprehensiveMetrics trades perf cash n2 e2 with
            timestamp := n1, benchmark_duration_seconds := e1 } := by
  intro trades perf cash n1 n2 e1 e2
  unfold calculateComprehensiveMetrics getBaselineResults
  by_cases h : trades = []
  · simp only [if_pos h]
  · simp only [if_neg h]

/-- C2 counterexample: a signal (`sell`) close appends a trade record
with no `exit_reason` key at all, and the forced close at the horizon
uses the reason string `final_close`, which is none of the four names
the claim allows. -/
theorem c2_exit_reason_counterexample :
    (executeTrade "sell" 100 3 (1/2) c2state).closed_trades.map (fun t => t.exit_reason)
        = [none]
      ∧ (closeRemainingAtEnd 100 5 c2state).closed_trades.map (fun t => t.exit_reason)
        = [some "final_close"]
      ∧ ¬ ("final_close" = "forced_close_at_horizon" ∨ "final_close" = "signal_close"
            ∨ "final_close" = "stop_loss" ∨ "final_close" = "take_profit") := by
  refine ⟨?_, ?_, by decide⟩
  · rw [executeTrade_sell_eq]
    simp [c2state, sellCloseStep]
  · unfold closeRemainingAtEnd
    simp [c2state, finalCloseStep]

/-- C2 amended: the `exit_reason` of every closed trade, when the key is
present, is `stop_loss`, `take_profit` or `final_close` (signal
closes carry no key); every position still open when the data stream ends
is closed at the final price with reason `final_close` and the open
list is emptied; and the open events recorded in the trade log are in
bijection with the closed trades once the run has ended. -/
theorem c2_exit_reasons_amended :
    ∀ (st : SimState) (rows : List MarketRow) (fp : ℚ) (fts : ℕ),
      accounted st →
      (∀ t ∈ st.closed_trades, allowedExit t) →
      (∀ t ∈ (closeRemainingAtEnd fp fts (runSteps st rows)).closed_trades, allowedExit t)
        ∧ (closeRemainingAtEnd fp fts (runSteps st rows)).open_positions = []
        ∧ (closeRemainingAtEnd fp fts (runSteps st rows)).closed_trades.map tradeData
            = (runSteps st rows).closed_trades.map tradeData
              ++ (runSteps st rows).open_positions.map (finalTradeData fp fts)
        ∧ (closeRemainingAtEnd fp fts (runSteps st rows)).open_event_count
            = (closeRemainingAtEnd fp fts (runSteps st rows)).closed_trades.length := by
  intro st rows fp fts hacc hallow
  have hrs_acc : accounted (runSteps st rows) :=
    @runSteps_pres accounted stepSim_accounted rows st hacc
  have hrs_allow : ∀ t ∈ (runSteps st rows).closed_trades, allowedExit t :=
    @runSteps_pres (fun s => ∀ t ∈ s.closed_trades, allowedExit t)
      stepSim_allowed rows st hallow
  refine ⟨closeRemainingAtEnd_allowed fp fts _ hrs_allow,
    closeRemainingAtEnd_open fp fts _,
    closeRemainingAtEnd_closedData fp fts _, ?_⟩
  have hlen := congrArg List.length
    (closeRemainingAtEnd_closedData fp fts (runSteps st rows))
  simp only [List.length_map, List.length_append] at hlen
  rw [closeRemainingAtEnd_openEvents, hlen]
  unfold accounted at hrs_acc
  omega

/-- C2 witness: the amended statement instantiated on a one-bar run from
the initial state. -/
theorem c2_exit_reasons_amended_witness :
    (∀ t ∈ (closeRemainingAtEnd 100 9 (runSteps initState [c10row])).closed_trades,
        allowedExit t)
      ∧ (closeRemainingAtEnd 100 9 (runSteps initState [c10row])).open_positions = []
      ∧ (closeRemainingAtEnd 100 9 (runSteps initState [c10row])).closed_trades.map tradeData
          = (runSteps initState [c10row]).closed_trades.map tradeData
            ++ (runSteps initState [c10row]).open_positions.map (finalTradeData 100 9)
      ∧ (closeRemainingAtEnd 100 9 (runSteps initState [c10row])).open_event_count
          = (closeRemainingAtEnd 100 9 (runSteps initState [c10row])).closed_trades.length :=
  c2_exit_reasons_amended initState [c10row] 100 9 rfl (by simp [initState])

/-- C8: at each step every open position is checked against its stop-loss
and take-profit levels using the close price of the bar, and a breached level
closes the position at the stored trigger price with the matching exit
reason and `pnl = (trigger − entry) × size` (the first conjunct
characterizes `check_stop_loss_take_profit`, which the step function runs
before the decision); in scenario A — a long at 100 with 3%/6% offsets
and a bar closing at 106 — the full step closes the position with exit
reason `take_profit` at price 106 and pnl equal to 6% of the 200-unit
notional. -/
theorem c8_stop_take_profit :
    (∀ (price : ℚ) (ts : ℕ) (st : SimState),
        (checkStopLossTakeProfit price ts st).open_positions
            = st.open_positions.filter (fun p => (breachReason price p).isNone)
          ∧ (checkStopLossTakeProfit price ts st).closed_trades.map tradeData
            = st.closed_trades.map tradeData
              ++ st.open_positions.filterMap
                (fun p => (breachReason price p).map (fun r => breachTradeData ts (r, p))))
      ∧ (stepSim c8state c8row).closed_trades.map
          (fun t => (t.exit_reason, t.exit_price, t.pnl))
          = [(some "take_profit", 106, take_profit_pct * (100 * 2))] := by
  refine ⟨fun price ts st =>
    ⟨checkSLTP_open price ts st, checkSLTP_closedData price ts st⟩, ?_⟩
  rw [(stepSim_fields c8state c8row).2.1]
  have hhold := ensemble_action_hold c8row
  simp only [stepCore, hhold, ne_eq, not_true_eq_false, if_false]
  norm_num [checkStopLossTakeProfit, closeBreached, closeBreachedStep, breachReason,
    c8state, c8row, take_profit_pct, removeFirst, List.filterMap_cons, List.filterMap_nil,
    List.foldl_cons, List.foldl_nil]
  refine ⟨by decide, ?_⟩
  rw [if_neg (by decide)]
  norm_num

/-- C9: with an empty closed-trade list the analyzer returns exactly the
degenerate baseline object — every performance metric zero, grade `D`,
with the explanatory message — and (being a total function) neither
raises nor divides by zero; in particular every run from the initial
state, having no trades, yields exactly this object. -/
theorem c9_zero_trades_degenerate :
    (∀ (perf : List PerfRecord) (cash : ℚ) (now : ℕ) (elapsed : ℚ),
        calculateComprehensiveMetrics [] perf cash now elapsed
          = getBaselineResults cash now elapsed)
      ∧ (∀ (cash : ℚ) (now : ℕ) (elapsed : ℚ),
          (getBaselineResults cash now elapsed).total_return = 0
          ∧ (getBaselineResults cash now elapsed).total_return_pct = 0
          ∧ (getBaselineResults cash now elapsed).sharpe = ⟨0, 0, 0⟩
          ∧ (getBaselineResults cash now elapsed).win_rate = 0
          ∧ (getBaselineResults cash now elapsed).win_rate_pct = 0
          ∧ (getBaselineResults cash now elapsed).max_drawdown = 0
          ∧ (getBaselineResults cash now elapsed).max_drawdown_pct = 0
          ∧ (getBaselineResults cash now elapsed).performance_score = ⟨0, 0, 0⟩
          ∧ (getBaselineResults cash now elapsed).performance_grade = "D"
          ∧ (getBaselineResults cash now elapsed).total_trades = 0
          ∧ (getBaselineResults cash now elapsed).winning_trades = 0
          ∧ (getBaselineResults cash now elapsed).losing_trades = 0
          ∧ (getBaselineResults cash now elapsed).avg_win = 0
          ∧ (getBaselineResults cash now elapsed).avg_loss = 0
          ∧ (getBaselineResults cash now elapsed).profit_factor = some 0
          ∧ (getBaselineResults cash now elapsed).volatility = ⟨0, 0, 0⟩
          ∧ (getBaselineResults cash now elapsed).confidence_weighted_return = 0
          ∧ (getBaselineResults cash now elapsed).stop_loss_rate = 0
          ∧ (getBaselineResults cash now elapsed).take_profit_rate = 0
          ∧ (getBaselineResults cash now elapsed).risk_adjusted_return = 0
          ∧ (getBaselineResults cash now elapsed).message
              = some "No trades executed - insufficient signal confidence")
      ∧ ∀ (rows : List MarketRow) (now : ℕ) (elapsed : ℚ),
          calculateComprehensiveMetrics (runSimulation initState rows).closed_trades
            (runSimulation initState rows).daily_performance
            (runSimulation initState rows).portfolio_value now elapsed
          = getBaselineResults (runSimulation initState rows).portfolio_value now elapsed := by
  refine ⟨?_, ?_, ?_⟩
  · intro perf cash now elapsed
    unfold calculateComprehensiveMetrics
    rw [if_pos rfl]
  · intro cash now elapsed
    exact ⟨rfl, rfl, rfl, rfl, rfl, rfl, rfl, rfl, rfl, rfl, rfl, rfl, rfl, rfl, rfl,
      rfl, rfl, rfl, rfl, rfl, rfl⟩
  · intro rows now elapsed
    rw [(run_no_trades rows).1]
    unfold calculateComprehensiveMetrics
    rw [if_pos rfl]

/-- C10: from any state within the position cap, the whole step loop
keeps the number of open positions at most `max_positions` (also in every
recorded performance entry), and a buy against a full position list
leaves the state unchanged — no other operation ever increases the
count. -/
theorem c10_max_positions_invariant :
    ∀ (st : SimState) (rows : List MarketRow),
      st.open_positions.length ≤ max_positions →
      (∀ r ∈ st.daily_performance, r.open_position_count ≤ max_positions) →
      (runSteps st rows).open_positions.length ≤ max_positions
        ∧ (∀ r ∈ (runSteps st rows).daily_performance,
            r.open_position_count ≤ max_positions)
        ∧ ∀ (price : ℚ) (ts : ℕ) (c : ℚ) (s : SimState),
            max_positions ≤ s.open_positions.length →
            executeTrade "buy" price ts c s = s := by
  intro st rows h1 h2
  have h := @runSteps_pres
    (fun s => s.open_positions.length ≤ max_positions
      ∧ ∀ r ∈ s.daily_performance, r.open_position_count ≤ max_positions)
    (fun s row hp => ⟨stepSim_open_le s row hp.1, stepSim_perf_le s row hp.1 hp.2⟩)
    rows st ⟨h1, h2⟩
  exact ⟨h.1, h.2, fun price ts c s hs => executeTrade_buy_capped price ts c s hs⟩

/-- C10 witness: the invariant instantiated on a one-bar run from the
initial state. -/
theorem c10_max_positions_invariant_witness :
    (runSteps initState [c10row]).open_positions.length ≤ max_positions
      ∧ (∀ r ∈ (runSteps initState [c10row]).daily_performance,
          r.open_position_count ≤ max_positions)
      ∧ ∀ (price : ℚ) (ts : ℕ) (c : ℚ) (s : SimState),
          max_positions ≤ s.open_positions.length →
          executeTrade "buy" price ts c s = s :=
  c10_max_positions_invariant initState [c10row] (by decide) (by simp [initState])
